import Mathlib

/-
Verification of the hooks run-state interpreter of the stellar-gateway
repository (src/gateway/hooks/runstate.go).

The interpreter is embedded shallowly:
* dynamic Go values (interface values flowing through conditions, responses
  and JSON decoding) are the inductive type GoValue, with GoValue.null
  standing for a nil interface value;
* Go (value, error) pairs are explicit pairs with Option GoError;
* the HooksContext owned by the session (run-slot, counter registry,
  barrier registry) is not part of the provided sources, so its operations
  are modelled from the spec (sections 3, 4.3 and 5); blocking outcomes of
  the two suspension points (run-slot acquisition) are resolved by an
  explicit oracle stream threaded through the state;
* external library collaborators (encoding/json, govalcmp.Compare, and
  detail marshaling inside grpc status WithDetails) are parameters,
  gathered in Env;
* the control points of an invocation (slot acquire/release, action
  dispatch, barrier wait, downstream handler call) are recorded in an
  event trace, so that locking discipline and handler-invocation counts
  are stated about the trace.
-/

set_option maxHeartbeats 1000000
set_option maxRecDepth 10000
set_option linter.unusedVariables false

/-- Dynamic Go values: everything that can flow through a ValueRef
resolution, a condition comparison, a response payload or a status detail.
GoValue.null stands for the nil interface value. -/
inductive GoValue where
  | null
  | bool (b : Bool)
  | int (n : Int)
  | num (n : Int)
  | str (s : String)
deriving Repr, DecidableEq

/-- Go error values produced or propagated by the interpreter: plain
errors.New strings, context cancellation errors, and grpc status errors
synthesized by a ReturnError action. -/
inductive GoError where
  | str (msg : String)
  | ctxErr (msg : String)
  | status (code : Int) (message : String) (details : List GoValue)
deriving Repr, DecidableEq

/-- A Go (response, error) pair as returned by runAction, runActions, Run
and the downstream handler: either component may be nil. -/
abbrev GoResult := Option GoValue × Option GoError

/-- A non-nil grpc status value: code, message and attached details. -/
structure GrpcStatus where
  code : Int
  message : String
  details : List GoValue
deriving Repr, DecidableEq

/-- Control points of one intercepted invocation, recorded in order:
run-slot acquisition (with outcome), run-slot release, dispatch of one
action (tagged with whether it is a WaitOnBarrier), parking on a barrier,
and invocation of the captured downstream handler. -/
inductive Event where
  | acquired
  | acquireFailed
  | released
  | exec (isWait : Bool)
  | barrierWaiting (barrierId : String)
  | handlerInvoked
deriving Repr, DecidableEq

/-- The proto comparison operator. Proto enums are open integer types, so
values outside the five declared operators are represented by
UNRECOGNIZED. -/
inductive ComparisonOperator where
  | EQUAL
  | GREATER_THAN
  | GREATER_THAN_OR_EQUAL
  | LESS_THAN
  | LESS_THAN_OR_EQUAL
  | UNRECOGNIZED (n : Int)
deriving Repr, DecidableEq

/-- The proto ValueRef oneof: a counter reference, a request-field path, a
literal JSON text, or an absent/unknown variant (a oneof may be unset). -/
inductive ValueRef where
  | CounterValue (counterId : String)
  | RequestField (path : String)
  | JsonValue (jsonValue : String)
  | unknown
deriving Repr, DecidableEq

/-- The proto HookCondition: left and right value references and the
comparison operator applied to their resolved values. -/
structure HookCondition where
  left : ValueRef
  op : ComparisonOperator
  right : ValueRef
deriving Repr, DecidableEq

mutual
/-- The proto HookAction oneof. If carries a condition list and two
sublists (Match and NoMatch); unknown models an unset/unrecognized oneof,
which the dispatcher rejects. Action lists are the sibling type
HookActions (a list type rendered mutually with HookAction so that the
interpreter is structurally recursive and kernel-computable). -/
inductive HookAction where
  | If (cond : List HookCondition) (matchActs noMatchActs : HookActions)
  | Counter (counterId : String) (delta : Int)
  | WaitOnBarrier (barrierId : String)
  | SignalBarrier (barrierId : String) (signalAll : Bool)
  | SetResponse (value : GoValue)
  | ReturnError (code : Int) (message : String) (details : List GoValue)
  | unknown
deriving Repr

/-- An ordered list of hook actions. -/
inductive HookActions where
  | nil
  | cons (a : HookAction) (rest : HookActions)
deriving Repr
end

/-- The proto Hook as used by the run-state: its ordered action list (the
selector fields are consumed by the registry, not by Run). -/
structure Hook where
  Actions : HookActions

/-- External library collaborators of the run-state, abstracted as pure
parameters: encoding/json Unmarshal on the literal text of a JsonValue,
govalcmp.Compare on two dynamic values, and whether marshaling a given
detail message into a status Any succeeds. -/
structure Env where
  jsonUnmarshal : String → Except GoError GoValue
  govalcmpCompare : GoValue → GoValue → Except GoError Int
  attachOk : GoValue → Bool

/-- Modelled from the spec: the per-session HooksContext state visible to
one invocation, threaded explicitly. counters is the counter registry
(id to current int64 value), barriers the set of lazily created barrier
ids, acqOracle the oracle stream resolving the blocking outcome of
successive acquireRunLock calls (the context is the missing source file;
sections 3, 4.3, 5 of the spec), and slotHeld whether this invocation
currently holds the session run-slot. -/
structure RunM where
  counters : List (String × Int)
  barriers : List String
  acqOracle : List (Option GoError)
  slotHeld : Bool
deriving Repr, DecidableEq

/-- The runState of one intercepted invocation: its run id, the captured
downstream handler (modelled by its result on a given request), and the
chosen hook. The HooksContext back-reference is the threaded RunM state. -/
structure runState where
  ID : String
  Handler : GoValue → GoResult
  Hook : Hook

/-- Modelled from the spec: HooksContext.acquireRunLock blocks until the
session run-slot is free or ctx is cancelled. The blocking outcome of
each call is resolved by the head of the acqOracle stream: none means the
slot is acquired, some e means ctx was cancelled and the call returns e;
an exhausted stream means the call succeeds. -/
def acquireRunLock (m : RunM) : Option GoError × RunM × List Event :=
  match m.acqOracle with
  | [] => (none, { m with slotHeld := true }, [Event.acquired])
  | none :: rest =>
      (none, { m with acqOracle := rest, slotHeld := true }, [Event.acquired])
  | some e :: rest =>
      (some e, { m with acqOracle := rest }, [Event.acquireFailed])

/-- Modelled from the spec: HooksContext.releaseRunLock frees the session
run-slot; it is idempotent per invocation (releasing an already free slot
leaves it free). -/
def releaseRunLock (m : RunM) : RunM × List Event :=
  ({ m with slotHeld := false }, [Event.released])

/-- Replaces the value bound to a counter id in the registry. -/
def countersSet (counterId : String) (v : Int) :
    List (String × Int) → List (String × Int)
  | [] => [(counterId, v)]
  | (k, w) :: rest =>
      if k = counterId then (k, v) :: rest
      else (k, w) :: countersSet counterId v rest

/-- Modelled from the spec: counter registry lookup with lazy creation —
a missing id is constructed with default value 0 and stored. Returns the
counter current value together with the updated registry state. -/
def counterResolve (counterId : String) (m : RunM) : Int × RunM :=
  match m.counters.lookup counterId with
  | some v => (v, m)
  | none => (0, { m with counters := m.counters ++ [(counterId, 0)] })

/-- Modelled from the spec: HooksContext.GetCounter, the concurrent
(mutex-guarded) counter lookup; combined here with Counter.Get, it yields
the counter current value. -/
def GetCounter (counterId : String) (m : RunM) : Int × RunM :=
  counterResolve counterId m

/-- Modelled from the spec: HooksContext.getCounterLocked, the guarded
counter lookup used while the caller holds the run-slot; same lazy-create
resolution. -/
def getCounterLocked (counterId : String) (m : RunM) : Int × RunM :=
  counterResolve counterId m

/-- Modelled from the spec: barrier registry lookup with lazy creation of
a missing barrier id. Only the registry membership is modelled; the
barrier wait queue belongs to the Barrier implementation, which no claim
inspects. -/
def barrierResolve (barrierId : String) (m : RunM) : RunM :=
  if m.barriers.contains barrierId then m
  else { m with barriers := m.barriers ++ [barrierId] }

/-- Modelled from the spec: HooksContext.GetBarrier, the concurrent
(mutex-guarded) barrier lookup. -/
def GetBarrier (barrierId : String) (m : RunM) : RunM :=
  barrierResolve barrierId m

/-- Modelled from the spec: HooksContext.getBarrierLocked, the guarded
barrier lookup used while the caller holds the run-slot. -/
def getBarrierLocked (barrierId : String) (m : RunM) : RunM :=
  barrierResolve barrierId m

/-- runState.compare: obtain the delta from govalcmp.Compare, propagate
its error, then apply the comparison operator to the sign of delta; any
operator outside the five known ones yields the invalid-operator error. -/
def runState.compare (env : Env) (left : GoValue) (op : ComparisonOperator)
    (right : GoValue) : Bool × Option GoError :=
  match env.govalcmpCompare left right with
  | .error e => (false, some e)
  | .ok delta =>
    match op with
    | .EQUAL => (decide (delta = 0), none)
    | .GREATER_THAN => (decide (delta > 0), none)
    | .GREATER_THAN_OR_EQUAL => (decide (delta ≥ 0), none)
    | .LESS_THAN => (decide (delta < 0), none)
    | .LESS_THAN_OR_EQUAL => (decide (delta ≤ 0), none)
    | .UNRECOGNIZED _ => (false, some (.str "invalid comparison operator"))

/-- runState.resolveValueRef_CounterValue: the current value of the named
counter (via HooksContext.GetCounter), never an error. -/
def resolveValueRef_CounterValue (env : Env) (s : runState) (req : GoValue)
    (counterId : String) (m : RunM) : (GoValue × Option GoError) × RunM :=
  let (v, m1) := GetCounter counterId m
  ((.int v, none), m1)

/-- runState.resolveValueRef_RequestField: unimplemented in the source;
always the unimplemented-request-field error. -/
def resolveValueRef_RequestField (env : Env) (s : runState) (req : GoValue)
    (path : String) (m : RunM) : (GoValue × Option GoError) × RunM :=
  ((.null, some (.str "unimplemented request field query")), m)

/-- runState.resolveValueRef_JsonValue: json.Unmarshal applied to the
literal JSON text of the reference; a decode error is returned as is. -/
def resolveValueRef_JsonValue (env : Env) (s : runState) (req : GoValue)
    (jsonValue : String) (m : RunM) : (GoValue × Option GoError) × RunM :=
  match env.jsonUnmarshal jsonValue with
  | .error e => ((.null, some e), m)
  | .ok v => ((v, none), m)

/-- runState.resolveValueRef: dispatch on the ValueRef oneof; an unset or
unknown variant is the invalid-value-ref error. -/
def resolveValueRef (env : Env) (s : runState) (req : GoValue)
    (ref : ValueRef) (m : RunM) : (GoValue × Option GoError) × RunM :=
  match ref with
  | .CounterValue counterId => resolveValueRef_CounterValue env s req counterId m
  | .RequestField path => resolveValueRef_RequestField env s req path m
  | .JsonValue j => resolveValueRef_JsonValue env s req j m
  | .unknown => ((.null, some (.str "invalid value ref")), m)

/-- runState.checkCondition: resolve the left reference, then the right
reference, then compare; the first error aborts the evaluation. -/
def checkCondition (env : Env) (s : runState) (req : GoValue)
    (cond : HookCondition) (m : RunM) : (Bool × Option GoError) × RunM :=
  let ((leftVal, err1), m1) := resolveValueRef env s req cond.left m
  match err1 with
  | some e => ((false, some e), m1)
  | none =>
    let ((rightVal, err2), m2) := resolveValueRef env s req cond.right m1
    match err2 with
    | some e => ((false, some e), m2)
    | none =>
      let (ok, err3) := runState.compare env leftVal cond.op rightVal
      match err3 with
      | some e => ((false, some e), m2)
      | none => ((ok, none), m2)

/-- runState.checkConditions: AND over the condition list, aborting on the
first error and short-circuiting to false (with no error) on the first
condition that evaluates to false. -/
def checkConditions (env : Env) (s : runState) (req : GoValue)
    (conds : List HookCondition) (m : RunM) : (Bool × Option GoError) × RunM :=
  match conds with
  | [] => ((true, none), m)
  | cond :: rest =>
    let ((ok, err), m1) := checkCondition env s req cond m
    match err with
    | some e => ((false, some e), m1)
    | none =>
      if ok then checkConditions env s req rest m1
      else ((false, none), m1)

/-- runState.runAction_Counter: guarded lookup of the counter (the slot is
held), then Counter.Update adds the signed delta. No response, no error. -/
def runAction_Counter (env : Env) (s : runState) (req : GoValue)
    (counterId : String) (delta : Int) (m : RunM) : GoResult × RunM :=
  let (v, m1) := getCounterLocked counterId m
  ((none, none), { m1 with counters := countersSet counterId (v + delta) m1.counters })

/-- runState.runAction_SignalBarrier: concurrent lookup of the barrier,
then SignalAll or TrySignalAny per the flag. The queue effects live in the
Barrier itself (outside the provided sources and not inspected by any
claim); the action yields no response and no error. -/
def runAction_SignalBarrier (env : Env) (s : runState) (req : GoValue)
    (barrierId : String) (signalAll : Bool) (m : RunM) : GoResult × RunM :=
  ((none, none), GetBarrier barrierId m)

/-- runState.runAction_SetResponse: return the literal payload with no
error. -/
def runAction_SetResponse (env : Env) (s : runState) (req : GoValue)
    (value : GoValue) (m : RunM) : GoResult × RunM :=
  ((some value, none), m)

/-- Models grpc-go status WithDetails restricted to one detail: a nil
receiver or a receiver with code OK yields (nil, error); if marshaling the
detail fails it yields (nil, error); otherwise the status with the detail
appended and no error. -/
def statusWithDetail (env : Env) (st : Option GrpcStatus) (d : GoValue) :
    Option GrpcStatus × Option GoError :=
  match st with
  | none => (none, some (.str "no error details for status with code OK"))
  | some stv =>
    if stv.code = 0 then
      (none, some (.str "no error details for status with code OK"))
    else if env.attachOk d then
      (some ⟨stv.code, stv.message, stv.details ++ [d]⟩, none)
    else
      (none, some (.str "failed to marshal detail"))

/-- Models grpc-go status Err: a nil status, or a status with code OK,
yields a nil error; any other status is returned as an error value. -/
def statusGoErr : Option GrpcStatus → Option GoError
  | none => none
  | some stv =>
      if stv.code = 0 then none
      else some (.status stv.code stv.message stv.details)

/-- runState.runAction_ReturnError: build a status from (code, message),
then for each detail run st, _ = st.WithDetails(detail) — keeping the
first component and discarding the error — and finally return
(nil, st.Err()). -/
def runAction_ReturnError (env : Env) (s : runState) (req : GoValue)
    (code : Int) (message : String) (details : List GoValue) (m : RunM) :
    GoResult × RunM :=
  let st0 : Option GrpcStatus := some ⟨code, message, []⟩
  let stN := details.foldl (fun st d => (statusWithDetail env st d).1) st0
  ((none, statusGoErr stN), m)

/-- runState.runAction_WaitOnBarrier: guarded lookup of the barrier while
the slot is still held, release of the run-slot, barrier.Wait (whose
returned error the source discards), then re-acquisition of the run-slot;
a failed re-acquisition propagates its error. -/
def runAction_WaitOnBarrier (env : Env) (s : runState) (req : GoValue)
    (barrierId : String) (m : RunM) : GoResult × RunM × List Event :=
  let m1 := getBarrierLocked barrierId m
  let (m2, tr1) := releaseRunLock m1
  let (acqErr, m3, tr2) := acquireRunLock m2
  match acqErr with
  | some e => ((none, some e), m3, tr1 ++ [Event.barrierWaiting barrierId] ++ tr2)
  | none => ((none, none), m3, tr1 ++ [Event.barrierWaiting barrierId] ++ tr2)

mutual
/-- runState.runAction: dispatch on the action oneof. Each dispatch is
recorded as an exec event (tagged true for WaitOnBarrier). The If handler
(runState.runAction_If in the source) is inlined into the If arm: it
evaluates the condition list and on success of the check runs the Match
or NoMatch sublist — the recursive calls go through the list runner. An
unset or unknown action variant is the invalid-hook-action error. -/
def runAction (env : Env) (s : runState) (req : GoValue) (a : HookAction)
    (m : RunM) : GoResult × RunM × List Event :=
  match a with
  | .If cond matchActs noMatchActs =>
    let ((ok, err), m1) := checkConditions env s req cond m
    (match err with
     | some e => ((none, some e), m1, [Event.exec false])
     | none =>
       if ok then
         let (r, m2, tr) := runActionsLoop env s req none matchActs m1
         (r, m2, Event.exec false :: tr)
       else
         let (r, m2, tr) := runActionsLoop env s req none noMatchActs m1
         (r, m2, Event.exec false :: tr))
  | .Counter counterId delta =>
    let (r, m1) := runAction_Counter env s req counterId delta m
    (r, m1, [Event.exec false])
  | .WaitOnBarrier barrierId =>
    let (r, m1, tr) := runAction_WaitOnBarrier env s req barrierId m
    (r, m1, Event.exec true :: tr)
  | .SignalBarrier barrierId signalAll =>
    let (r, m1) := runAction_SignalBarrier env s req barrierId signalAll m
    (r, m1, [Event.exec false])
  | .SetResponse v =>
    let (r, m1) := runAction_SetResponse env s req v m
    (r, m1, [Event.exec false])
  | .ReturnError code message details =>
    let (r, m1) := runAction_ReturnError env s req code message details m
    (r, m1, [Event.exec false])
  | .unknown =>
    ((none, some (.str "invalid hook action type")), m, [Event.exec false])

/-- The loop body of runState.runActions: respOut is the response
remembered so far (the local respOut variable of the source). Each action
runs in order; the first error aborts the loop and is returned with a nil
response; a non-nil response overwrites respOut; after the list the
remembered response is returned with a nil error. -/
def runActionsLoop (env : Env) (s : runState) (req : GoValue)
    (respOut : Option GoValue) (acts : HookActions) (m : RunM) :
    GoResult × RunM × List Event :=
  match acts with
  | .nil => ((respOut, none), m, [])
  | .cons a rest =>
    let ((resp, err), m1, tr1) := runAction env s req a m
    match err with
    | some e => ((none, some e), m1, tr1)
    | none =>
      let respOut2 := match resp with | some r => some r | none => respOut
      let (r, m2, tr2) := runActionsLoop env s req respOut2 rest m1
      (r, m2, tr1 ++ tr2)
end

/-- runState.runActions: run a list of actions with no response remembered
yet. -/
def runActions (env : Env) (s : runState) (req : GoValue)
    (acts : HookActions) (m : RunM) : GoResult × RunM × List Event :=
  runActionsLoop env s req none acts m

/-- runState.Run: acquire the session run-slot (a cancellation surfaces as
the returned error and nothing runs); run the hook action list; release
the run-slot unconditionally; if the actions produced neither a response
nor an error, invoke the captured downstream handler and return its result
verbatim, otherwise return the actions result. -/
def Run (env : Env) (s : runState) (req : GoValue) (m : RunM) :
    GoResult × RunM × List Event :=
  let (acqErr, m1, tr1) := acquireRunLock m
  match acqErr with
  | some e => ((none, some e), m1, tr1)
  | none =>
    let ((resp, err), m2, tr2) := runActions env s req s.Hook.Actions m1
    let (m3, tr3) := releaseRunLock m2
    match resp, err with
    | none, none => (s.Handler req, m3, tr1 ++ tr2 ++ tr3 ++ [Event.handlerInvoked])
    | _, _ => ((resp, err), m3, tr1 ++ tr2 ++ tr3)


/-- Number of downstream-handler invocations recorded in a trace. -/
def countHandler (tr : List Event) : Nat :=
  tr.count Event.handlerInvoked

/-- How one event changes whether this run-state holds the run-slot. -/
def nextSlot (h : Bool) : Event → Bool
  | .acquired => true
  | .released => false
  | _ => h

/-- Replay of the slot-holding state of a run-state over its trace. -/
def replaySlot (h : Bool) : List Event → Bool
  | [] => h
  | e :: tr => replaySlot (nextSlot h e) tr

/-- Whether one event respects the run-slot discipline given the current
holding state: actions are dispatched only while the slot is held, a
barrier wait and the downstream handler happen only while it is free. -/
def eventOk (h : Bool) : Event → Bool
  | .exec _ => h
  | .barrierWaiting _ => !h
  | .handlerInvoked => !h
  | _ => true

/-- The run-slot discipline over a whole trace, starting from a given
holding state. -/
def slotOkB (h : Bool) : List Event → Bool
  | [] => true
  | e :: tr => eventOk h e && slotOkB (nextSlot h e) tr

theorem replaySlot_append (h : Bool) (xs ys : List Event) :
    replaySlot h (xs ++ ys) = replaySlot (replaySlot h xs) ys := by
  induction xs generalizing h with
  | nil => rfl
  | cons e xs ih => simp [replaySlot, ih]

theorem slotOkB_append (h : Bool) (xs ys : List Event) :
    slotOkB h (xs ++ ys) = (slotOkB h xs && slotOkB (replaySlot h xs) ys) := by
  induction xs generalizing h with
  | nil => simp [slotOkB, replaySlot]
  | cons e xs ih => simp [slotOkB, replaySlot, ih, Bool.and_assoc]

theorem countHandler_append (xs ys : List Event) :
    countHandler (xs ++ ys) = countHandler xs + countHandler ys :=
  List.count_append ..

theorem counterResolve_slotHeld (counterId : String) (m : RunM) :
    ((counterResolve counterId m).2).slotHeld = m.slotHeld := by
  unfold counterResolve
  cases m.counters.lookup counterId <;> rfl

theorem counterResolve_acqOracle (counterId : String) (m : RunM) :
    ((counterResolve counterId m).2).acqOracle = m.acqOracle := by
  unfold counterResolve
  cases m.counters.lookup counterId <;> rfl

theorem barrierResolve_slotHeld (barrierId : String) (m : RunM) :
    (barrierResolve barrierId m).slotHeld = m.slotHeld := by
  unfold barrierResolve
  split <;> rfl

theorem resolveValueRef_slotHeld (env : Env) (s : runState) (req : GoValue)
    (ref : ValueRef) (m : RunM) :
    ((resolveValueRef env s req ref m).2).slotHeld = m.slotHeld := by
  cases ref with
  | CounterValue counterId =>
      simpa [resolveValueRef, resolveValueRef_CounterValue, GetCounter] using
        counterResolve_slotHeld counterId m
  | RequestField path => rfl
  | JsonValue j =>
      simp only [resolveValueRef, resolveValueRef_JsonValue]
      cases env.jsonUnmarshal j <;> rfl
  | unknown => rfl

theorem checkCondition_slotHeld (env : Env) (s : runState) (req : GoValue)
    (cond : HookCondition) (m : RunM) :
    ((checkCondition env s req cond m).2).slotHeld = m.slotHeld := by
  unfold checkCondition
  rcases h1 : resolveValueRef env s req cond.left m with ⟨⟨leftVal, err1⟩, m1⟩
  have hs1 : m1.slotHeld = m.slotHeld := by
    have h := resolveValueRef_slotHeld env s req cond.left m
    rw [h1] at h; exact h
  dsimp only
  cases err1 with
  | some e => simpa using hs1
  | none =>
    simp only
    split
    · simp [resolveValueRef_slotHeld, hs1]
    · split <;> simp [resolveValueRef_slotHeld, hs1]

theorem checkConditions_slotHeld (env : Env) (s : runState) (req : GoValue)
    (conds : List HookCondition) (m : RunM) :
    ((checkConditions env s req conds m).2).slotHeld = m.slotHeld := by
  induction conds generalizing m with
  | nil => rfl
  | cons cond rest ih =>
    unfold checkConditions
    rcases h1 : checkCondition env s req cond m with ⟨⟨ok, err⟩, m1⟩
    have hs1 : m1.slotHeld = m.slotHeld := by
      have h := checkCondition_slotHeld env s req cond m
      rw [h1] at h; exact h
    dsimp only
    cases err with
    | some e => simpa using hs1
    | none =>
      cases ok
      · simpa using hs1
      · simpa [hs1] using ih m1

theorem barrierResolve_acqOracle (barrierId : String) (m : RunM) :
    (barrierResolve barrierId m).acqOracle = m.acqOracle := by
  unfold barrierResolve
  split <;> rfl

theorem runAction_Counter_slotHeld (env : Env) (s : runState) (req : GoValue)
    (counterId : String) (delta : Int) (m : RunM) :
    ((runAction_Counter env s req counterId delta m).2).slotHeld = m.slotHeld := by
  unfold runAction_Counter getCounterLocked
  simp [counterResolve_slotHeld]

theorem countHandler_nil : countHandler [] = 0 := rfl

theorem countHandler_cons (e : Event) (tr : List Event) :
    countHandler (e :: tr) =
      countHandler tr + (if e = Event.handlerInvoked then 1 else 0) := by
  simp [countHandler, List.count_cons]

mutual
theorem runAction_trace (env : Env) (s : runState) (req : GoValue)
    (a : HookAction) (m : RunM) (h : m.slotHeld = true) :
    countHandler (runAction env s req a m).2.2 = 0 ∧
    slotOkB true (runAction env s req a m).2.2 = true ∧
    (runAction env s req a m).2.1.slotHeld
      = replaySlot true (runAction env s req a m).2.2 ∧
    ((runAction env s req a m).1.2 = none →
      (runAction env s req a m).2.1.slotHeld = true) := by
  cases a with
  | If cond matchActs noMatchActs =>
    have hcS : (checkConditions env s req cond m).2.slotHeld = m.slotHeld :=
      checkConditions_slotHeld env s req cond m
    simp only [runAction]
    rcases hc : (checkConditions env s req cond m).1.2 with _ | e
    · dsimp only
      rcases hok : (checkConditions env s req cond m).1.1 with _ | _
      · have ih := runActionsLoop_trace env s req none noMatchActs
          (checkConditions env s req cond m).2 (by rw [hcS, h])
        refine ⟨?_, ?_, ?_, ?_⟩
        · simp [countHandler_cons, ih.1]
        · simp [slotOkB, eventOk, nextSlot, ih.2.1]
        · simp [replaySlot, nextSlot, ih.2.2.1]
        · intro he; exact ih.2.2.2 he
      · have ih := runActionsLoop_trace env s req none matchActs
          (checkConditions env s req cond m).2 (by rw [hcS, h])
        refine ⟨?_, ?_, ?_, ?_⟩
        · simp [countHandler_cons, ih.1]
        · simp [slotOkB, eventOk, nextSlot, ih.2.1]
        · simp [replaySlot, nextSlot, ih.2.2.1]
        · intro he; exact ih.2.2.2 he
    · dsimp only
      refine ⟨rfl, ?_, ?_, ?_⟩
      · simp [slotOkB, eventOk, nextSlot, h]
      · simp [replaySlot, nextSlot, hcS, h]
      · intro he; exact absurd he (by simp)
  | Counter counterId delta =>
    have hp : ((runAction_Counter env s req counterId delta m).2).slotHeld
        = m.slotHeld := runAction_Counter_slotHeld env s req counterId delta m
    simp only [runAction]
    refine ⟨rfl, ?_, ?_, ?_⟩
    · simp [slotOkB, eventOk, nextSlot, h]
    · simp [replaySlot, nextSlot, hp, h]
    · intro he; rw [hp, h]
  | WaitOnBarrier barrierId =>
    have hb1 : (getBarrierLocked barrierId m).slotHeld = m.slotHeld :=
      barrierResolve_slotHeld barrierId m
    have hb2 : (getBarrierLocked barrierId m).acqOracle = m.acqOracle :=
      barrierResolve_acqOracle barrierId m
    simp only [runAction, runAction_WaitOnBarrier, releaseRunLock, acquireRunLock]
    rcases hq : m.acqOracle with _ | ⟨oe, rest⟩
    · simp only [hb2, hq]
      refine ⟨rfl, ?_, ?_, ?_⟩
      · simp [slotOkB, eventOk, nextSlot, h]
      · simp [replaySlot, nextSlot]
      · intro he; trivial
    · cases oe with
      | none =>
        simp only [hb2, hq]
        refine ⟨rfl, ?_, ?_, ?_⟩
        · simp [slotOkB, eventOk, nextSlot, h]
        · simp [replaySlot, nextSlot]
        · intro he; trivial
      | some e =>
        simp only [hb2, hq]
        refine ⟨rfl, ?_, ?_, ?_⟩
        · simp [slotOkB, eventOk, nextSlot, h]
        · simp [replaySlot, nextSlot]
        · intro he; exact absurd he (by simp)
  | SignalBarrier barrierId signalAll =>
    have hp : (barrierResolve barrierId m).slotHeld = m.slotHeld :=
      barrierResolve_slotHeld barrierId m
    simp only [runAction, runAction_SignalBarrier, GetBarrier]
    refine ⟨rfl, ?_, ?_, ?_⟩
    · simp [slotOkB, eventOk, nextSlot, h]
    · simp [replaySlot, nextSlot, hp, h]
    · intro he; rw [hp, h]
  | SetResponse v =>
    simp only [runAction, runAction_SetResponse]
    refine ⟨rfl, ?_, ?_, ?_⟩
    · simp [slotOkB, eventOk, nextSlot, h]
    · simp [replaySlot, nextSlot, h]
    · intro he; exact h
  | ReturnError code message details =>
    simp only [runAction, runAction_ReturnError]
    refine ⟨rfl, ?_, ?_, ?_⟩
    · simp [slotOkB, eventOk, nextSlot, h]
    · simp [replaySlot, nextSlot, h]
    · intro he; exact h
  | unknown =>
    simp only [runAction]
    refine ⟨rfl, ?_, ?_, ?_⟩
    · simp [slotOkB, eventOk, nextSlot, h]
    · simp [replaySlot, nextSlot, h]
    · intro he; exact absurd he (by simp)

theorem runActionsLoop_trace (env : Env) (s : runState) (req : GoValue)
    (respOut : Option GoValue) (acts : HookActions) (m : RunM)
    (h : m.slotHeld = true) :
    countHandler (runActionsLoop env s req respOut acts m).2.2 = 0 ∧
    slotOkB true (runActionsLoop env s req respOut acts m).2.2 = true ∧
    (runActionsLoop env s req respOut acts m).2.1.slotHeld
      = replaySlot true (runActionsLoop env s req respOut acts m).2.2 ∧
    ((runActionsLoop env s req respOut acts m).1.2 = none →
      (runActionsLoop env s req respOut acts m).2.1.slotHeld = true) := by
  cases acts with
  | nil =>
    simp only [runActionsLoop]
    exact ⟨rfl, rfl, h, fun _ => h⟩
  | cons a rest =>
    have iha := runAction_trace env s req a m h
    simp only [runActionsLoop]
    rcases he : (runAction env s req a m).1.2 with _ | e
    · dsimp only
      have hslot : (runAction env s req a m).2.1.slotHeld = true := iha.2.2.2 he
      have ihl := runActionsLoop_trace env s req
        (match (runAction env s req a m).1.1 with
          | some r => some r
          | none => respOut) rest (runAction env s req a m).2.1 hslot
      refine ⟨?_, ?_, ?_, ?_⟩
      · simp [countHandler_append, iha.1, ihl.1]
      · rw [slotOkB_append, ← iha.2.2.1, hslot, iha.2.1, ihl.2.1]; rfl
      · rw [replaySlot_append, ← iha.2.2.1, hslot, ihl.2.2.1]
      · intro hre
        exact ihl.2.2.2 hre
    · dsimp only
      exact ⟨iha.1, iha.2.1, iha.2.2.1, fun hre => absurd hre (by simp)⟩
end

theorem acquireRunLock_ok (m m1 : RunM) (tr : List Event)
    (h : acquireRunLock m = (none, m1, tr)) :
    m1.slotHeld = true ∧ tr = [Event.acquired] := by
  unfold acquireRunLock at h
  rcases hq : m.acqOracle with _ | ⟨oe, rest⟩ <;> rw [hq] at h
  · simp only [Prod.mk.injEq] at h
    exact ⟨by rw [← h.2.1], h.2.2.symm⟩
  · cases oe with
    | none =>
      simp only [Prod.mk.injEq] at h
      exact ⟨by rw [← h.2.1], h.2.2.symm⟩
    | some e =>
      simp only [Prod.mk.injEq] at h
      exact absurd h.1 (by simp)

theorem acquireRunLock_fail (m m1 : RunM) (e : GoError) (tr : List Event)
    (h : acquireRunLock m = (some e, m1, tr)) : tr = [Event.acquireFailed] := by
  unfold acquireRunLock at h
  rcases hq : m.acqOracle with _ | ⟨oe, rest⟩ <;> rw [hq] at h
  · simp at h
  · cases oe with
    | none => simp at h
    | some e2 =>
      simp only [Prod.mk.injEq] at h
      exact h.2.2.symm

theorem runActions_trace (env : Env) (s : runState) (req : GoValue)
    (acts : HookActions) (m : RunM) (h : m.slotHeld = true) :
    countHandler (runActions env s req acts m).2.2 = 0 ∧
    slotOkB true (runActions env s req acts m).2.2 = true ∧
    (runActions env s req acts m).2.1.slotHeld
      = replaySlot true (runActions env s req acts m).2.2 ∧
    ((runActions env s req acts m).1.2 = none →
      (runActions env s req acts m).2.1.slotHeld = true) :=
  runActionsLoop_trace env s req none acts m h

theorem Run_eq_ok (env : Env) (s : runState) (req : GoValue) (m m1 : RunM)
    (tr1 : List Event) (h : acquireRunLock m = (none, m1, tr1)) :
    Run env s req m =
      ((if (runActions env s req s.Hook.Actions m1).1 = (none, none)
          then s.Handler req
          else (runActions env s req s.Hook.Actions m1).1),
       { (runActions env s req s.Hook.Actions m1).2.1 with slotHeld := false },
       tr1 ++ (runActions env s req s.Hook.Actions m1).2.2 ++ [Event.released]
         ++ (if (runActions env s req s.Hook.Actions m1).1 = (none, none)
             then [Event.handlerInvoked] else [])) := by
  unfold Run releaseRunLock
  rw [h]
  dsimp only
  rcases hre : (runActions env s req s.Hook.Actions m1).1.1 with _ | v <;>
    rcases hee : (runActions env s req s.Hook.Actions m1).1.2 with _ | e
  · have hP : (runActions env s req s.Hook.Actions m1).1 = (none, none) := by
      rw [Prod.ext_iff]; exact ⟨hre, hee⟩
    simp [hP]
  · have hP : (runActions env s req s.Hook.Actions m1).1 ≠ (none, none) := by
      rw [Ne, Prod.ext_iff]; intro hcon; rw [hee] at hcon; simp at hcon
    simp [hP, Prod.ext_iff, hre, hee]
  · have hP : (runActions env s req s.Hook.Actions m1).1 ≠ (none, none) := by
      rw [Ne, Prod.ext_iff]; intro hcon; rw [hre] at hcon; simp at hcon
    simp [hP, Prod.ext_iff, hre, hee]
  · have hP : (runActions env s req s.Hook.Actions m1).1 ≠ (none, none) := by
      rw [Ne, Prod.ext_iff]; intro hcon; rw [hre] at hcon; simp at hcon
    simp [hP, Prod.ext_iff, hre, hee]

theorem Run_slotOk (env : Env) (s : runState) (req : GoValue) (m : RunM) :
    slotOkB false (Run env s req m).2.2 = true := by
  rcases hacq : acquireRunLock m with ⟨acqErr, m1, tr1⟩
  cases acqErr with
  | some e =>
    have htr : tr1 = [Event.acquireFailed] := acquireRunLock_fail m m1 e tr1 hacq
    unfold Run
    rw [hacq]
    dsimp only
    rw [htr]
    rfl
  | none =>
    rw [Run_eq_ok env s req m m1 tr1 hacq]
    have hs1 := acquireRunLock_ok m m1 tr1 hacq
    have hL := runActions_trace env s req s.Hook.Actions m1 hs1.1
    rw [hs1.2]
    by_cases hP : (runActions env s req s.Hook.Actions m1).1 = (none, none)
    · simp [hP, slotOkB_append, slotOkB, eventOk, nextSlot, replaySlot,
        replaySlot_append, hL.2.1]
    · simp [hP, slotOkB_append, slotOkB, eventOk, nextSlot, replaySlot,
        replaySlot_append, hL.2.1]

/-- A global schedule of one session: the events of several run-states,
tagged by run id, in the order they happen. -/
abbrev Sched := List (String × Event)

/-- How one tagged event changes the identity of the current run-slot
holder: a successful acquisition makes its run the holder, a release by
the holder frees the slot (release by a non-holder is the idempotent
no-op), anything else leaves the holder unchanged. -/
def holderStep (h : Option String) (re : String × Event) : Option String :=
  match re.2 with
  | .acquired => some re.1
  | .released => if h = some re.1 then none else h
  | _ => h

/-- The run-slot holder after a schedule. -/
def holderAfter (h : Option String) : Sched → Option String
  | [] => h
  | re :: σ => holderAfter (holderStep h re) σ

/-- Modelled from the spec: the session run-slot is a mutual-exclusion
resource, so an admissible schedule only lets a run-state acquire the slot
while no run-state holds it. -/
def exclusiveB (h : Option String) : Sched → Bool
  | [] => true
  | re :: σ =>
      (match re.2 with
       | .acquired => decide (h = none)
       | _ => true) && exclusiveB (holderStep h re) σ

/-- The events of one run-state inside a schedule, in order. -/
def projRun (r : String) (σ : Sched) : List Event :=
  σ.filterMap (fun re => if re.1 = r then some re.2 else none)

theorem projRun_cons (r r1 : String) (e : Event) (σ : Sched) :
    projRun r ((r1, e) :: σ)
      = if r1 = r then e :: projRun r σ else projRun r σ := by
  unfold projRun
  rw [List.filterMap_cons]
  by_cases hr : r1 = r <;> simp [hr]

theorem projRun_append (r : String) (σ1 σ2 : Sched) :
    projRun r (σ1 ++ σ2) = projRun r σ1 ++ projRun r σ2 := by
  unfold projRun
  rw [List.filterMap_append]

theorem exclusiveB_append (h : Option String) (σ1 σ2 : Sched) :
    exclusiveB h (σ1 ++ σ2)
      = (exclusiveB h σ1 && exclusiveB (holderAfter h σ1) σ2) := by
  induction σ1 generalizing h with
  | nil => simp [exclusiveB, holderAfter]
  | cons re σ1 ih => simp [exclusiveB, holderAfter, ih, Bool.and_assoc]

theorem holder_matches_local (σ : Sched) :
    ∀ (h0 : Option String) (f : String → Bool),
    (∀ r, f r = true ↔ h0 = some r) →
    exclusiveB h0 σ = true →
    ∀ r, (replaySlot (f r) (projRun r σ) = true ↔ holderAfter h0 σ = some r) := by
  induction σ with
  | nil =>
    intro h0 f hf _ r
    exact hf r
  | cons re σ ih =>
    intro h0 f hf hex r
    rcases re with ⟨r1, e⟩
    rw [exclusiveB, Bool.and_eq_true] at hex
    have hinv : ∀ x, (if x = r1 then nextSlot (f r1) e else f x) = true
        ↔ holderStep h0 (r1, e) = some x := by
      intro x
      cases e with
      | acquired =>
        have h0none : h0 = none := by
          have := hex.1
          simpa using this
        by_cases hx : x = r1
        · subst hx
          simp [holderStep, nextSlot]
        · have hfx : f x = false := by
            rcases hb : f x with _ | _
            · rfl
            · exact absurd ((hf x).mp hb) (by rw [h0none]; simp)
          simp [holderStep, hx, hfx, Ne.symm hx]
      | released =>
        by_cases hx : x = r1
        · subst hx
          by_cases hh : h0 = some x
          · simp [holderStep, hh, nextSlot]
          · simp [holderStep, hh, nextSlot]
        · by_cases hh : h0 = some r1
          · have hfx : f x = false := by
              rcases hb : f x with _ | _
              · rfl
              · have := (hf x).mp hb
                rw [hh] at this
                exact absurd (Option.some.inj this) (fun hc => hx (hc.symm ▸ rfl))
            simp [holderStep, hh, hx, hfx]
          · simp [holderStep, hh, hx, hf x]
      | acquireFailed =>
        by_cases hx : x = r1 <;> simp [holderStep, nextSlot, hx, hf x, hf r1]
      | exec w =>
        by_cases hx : x = r1 <;> simp [holderStep, nextSlot, hx, hf x, hf r1]
      | barrierWaiting b =>
        by_cases hx : x = r1 <;> simp [holderStep, nextSlot, hx, hf x, hf r1]
      | handlerInvoked =>
        by_cases hx : x = r1 <;> simp [holderStep, nextSlot, hx, hf x, hf r1]
    have hstep := ih (holderStep h0 (r1, e))
      (fun x => if x = r1 then nextSlot (f r1) e else f x) hinv hex.2 r
    rw [projRun_cons] at *
    by_cases hr : r1 = r
    · subst hr
      rw [if_pos rfl]
      rw [replaySlot]
      rw [if_pos rfl] at hstep
      rw [holderAfter]
      exact hstep
    · rw [if_neg hr]
      rw [if_neg (fun hc : r = r1 => hr hc.symm)] at hstep
      rw [holderAfter]
      exact hstep

theorem exec_only_by_holder (σ1 σ2 : Sched) (r : String) (w : Bool)
    (hex : exclusiveB none (σ1 ++ (r, Event.exec w) :: σ2) = true)
    (hdis : slotOkB false (projRun r (σ1 ++ (r, Event.exec w) :: σ2)) = true) :
    holderAfter none σ1 = some r := by
  rw [exclusiveB_append, Bool.and_eq_true] at hex
  rw [projRun_append, projRun_cons, if_pos rfl, slotOkB_append,
    Bool.and_eq_true, slotOkB, Bool.and_eq_true] at hdis
  have hrep : replaySlot false (projRun r σ1) = true := by
    have := hdis.2.1
    simpa [eventOk] using this
  exact (holder_matches_local σ1 none (fun _ => false) (by simp) hex.1 r).mp hrep

/-- The list-execution rule exactly as the spec words it (section 4.5):
for each action in order run it; on error abort the list and propagate the
error with a nil response; on a non-nil response remember it, overwriting
any prior remembered response, and continue; on nil response and no error
continue; after the list return the remembered response with a nil
error. -/
def specListExecution (env : Env) (s : runState) (req : GoValue)
    (remembered : Option GoValue) (acts : HookActions) (m : RunM) :
    GoResult × RunM × List Event :=
  match acts with
  | .nil => ((remembered, none), m, [])
  | .cons a rest =>
    let ((resp, err), m1, tr1) := runAction env s req a m
    match err with
    | some e => ((none, some e), m1, tr1)
    | none =>
      match resp with
      | some r =>
        let (res, m2, tr2) := specListExecution env s req (some r) rest m1
        (res, m2, tr1 ++ tr2)
      | none =>
        let (res, m2, tr2) := specListExecution env s req remembered rest m1
        (res, m2, tr1 ++ tr2)

theorem runActionsLoop_eq_specListExecution (env : Env) (s : runState)
    (req : GoValue) (acts : HookActions) (remembered : Option GoValue)
    (m : RunM) :
    runActionsLoop env s req remembered acts m
      = specListExecution env s req remembered acts m := by
  cases acts with
  | nil => rfl
  | cons a rest =>
    simp only [runActionsLoop, specListExecution]
    rcases he : (runAction env s req a m).1.2 with _ | e
    · rcases hr : (runAction env s req a m).1.1 with _ | v <;>
        simp [runActionsLoop_eq_specListExecution env s req rest]
    · rfl

/-- The numeric-class view of a dynamic value, as the spec describes the
comparator promotion (section 4.1): booleans and integers embed into one
exact common domain (the scenarios only exercise integral JSON numbers,
so the common domain is rendered with exact integers). -/
def numView : GoValue → Option Int
  | .bool false => some 0
  | .bool true => some 1
  | .int n => some n
  | .num n => some n
  | _ => none

/-- The sign of a difference, as the comparator delta. -/
def ratSign (q : Int) : Int :=
  if q < 0 then -1 else if 0 < q then 1 else 0

/-- Modelled from the spec: govalcmp.Compare (section 4.1) on the value
classes the scenarios exercise — the numeric class compared by exact
value, the textual class compared lexicographically, null equal only to
null; operands of incompatible classes fail. The returned delta is the
sign of left minus right. -/
def specCompare (l r : GoValue) : Except GoError Int :=
  match numView l, numView r with
  | some p, some q => .ok (ratSign (p - q))
  | _, _ =>
    match l, r with
    | .str a, .str b => .ok (if a < b then -1 else if b < a then 1 else 0)
    | .null, .null => .ok 0
    | _, _ => .error (.str "invalid comparison")

/-- The value of a decimal digit character. -/
def digitVal (c : Char) : Option Nat :=
  if c = '0' then some 0 else if c = '1' then some 1 else if c = '2' then some 2
  else if c = '3' then some 3 else if c = '4' then some 4 else if c = '5' then some 5
  else if c = '6' then some 6 else if c = '7' then some 7 else if c = '8' then some 8
  else if c = '9' then some 9 else none

/-- The value of a non-empty digit sequence, given an accumulator. -/
def digitsVal (acc : Nat) : List Char → Option Nat
  | [] => some acc
  | c :: cs =>
    match digitVal c with
    | some d => digitsVal (acc * 10 + d) cs
    | none => none

/-- An optionally signed decimal integer literal. -/
def parseIntLit (text : String) : Option Int :=
  match text.data with
  | [] => none
  | '-' :: cs =>
    match cs with
    | [] => none
    | _ => (digitsVal 0 cs).map (fun n => -(n : Int))
  | cs => (digitsVal 0 cs).map (fun n => (n : Int))

/-- Modelled from the spec: encoding/json Unmarshal (section 4.6) on the
scalar fragment the scenarios exercise — null, booleans and integer
numerals decode to the corresponding generic value; any other text is a
decode error. -/
def specJsonDecode (text : String) : Except GoError GoValue :=
  if text = "null" then .ok .null
  else if text = "true" then .ok (.bool true)
  else if text = "false" then .ok (.bool false)
  else
    match parseIntLit text with
    | some n => .ok (.num n)
    | none => .error (.str ("invalid json literal: " ++ text))

/-- The concrete environment for scenario proofs: the spec-modelled JSON
decoder and comparator, with detail marshaling always succeeding. -/
def scenarioEnv : Env :=
  { jsonUnmarshal := specJsonDecode
    govalcmpCompare := specCompare
    attachOk := fun _ => true }

/-- An environment in which marshaling any status detail fails, exhibiting
the detail-attachment failure path of ReturnError. -/
def attachFailEnv : Env :=
  { jsonUnmarshal := specJsonDecode
    govalcmpCompare := specCompare
    attachOk := fun _ => false }

/-- The current value of a named counter in a session state (0 when the
counter was never referenced). -/
def counterValue (m : RunM) (counterId : String) : Int :=
  (m.counters.lookup counterId).getD 0

/-- A fresh session state: no counters, no barriers, every acquisition
succeeds, slot not held. -/
def wM0 : RunM := ⟨[], [], [], false⟩

/-- A run-state with an empty action list and a recognisable handler. -/
def wS1 : runState :=
  ⟨"w1", fun _ => (some (.str "H"), none), ⟨HookActions.nil⟩⟩

/-- Claim C1: for every hook, Run invokes the captured downstream handler
exactly once iff interpreting the hook action list produced neither a
non-nil response nor an error (in particular exactly once for every hook
with an empty action list), and in that case the handler result is
returned unchanged; if any action produced a response or an error, the
handler is not called at all and the actions result is returned. -/
theorem run_invokes_handler_iff_no_outcome (env : Env) (s : runState)
    (req : GoValue) (m m1 : RunM) (tr1 : List Event)
    (hacq : acquireRunLock m = (none, m1, tr1)) :
    (countHandler (Run env s req m).2.2
       = if (runActions env s req s.Hook.Actions m1).1 = (none, none)
         then 1 else 0) ∧
    ((runActions env s req s.Hook.Actions m1).1 = (none, none) →
       (Run env s req m).1 = s.Handler req) ∧
    ((runActions env s req s.Hook.Actions m1).1 ≠ (none, none) →
       countHandler (Run env s req m).2.2 = 0 ∧
       (Run env s req m).1 = (runActions env s req s.Hook.Actions m1).1) ∧
    (s.Hook.Actions = HookActions.nil →
       countHandler (Run env s req m).2.2 = 1 ∧
       (Run env s req m).1 = s.Handler req) := by
  have hs1 := acquireRunLock_ok m m1 tr1 hacq
  have hT := runActions_trace env s req s.Hook.Actions m1 hs1.1
  rw [Run_eq_ok env s req m m1 tr1 hacq, hs1.2]
  by_cases hP : (runActions env s req s.Hook.Actions m1).1 = (none, none)
  · refine ⟨?_, fun _ => by simp [hP], fun hc => absurd hP hc, fun hnil => ⟨?_, ?_⟩⟩
    · simp [hP, countHandler_append, countHandler_cons, countHandler_nil, hT.1]
    · simp [hP, countHandler_append, countHandler_cons, countHandler_nil, hT.1]
    · simp [hP]
  · refine ⟨?_, fun hc => absurd hc hP, fun _ => ⟨?_, by simp [hP]⟩, fun hnil => ?_⟩
    · simp [hP, countHandler_append, countHandler_cons, countHandler_nil, hT.1]
    · simp [hP, countHandler_append, countHandler_cons, countHandler_nil, hT.1]
    · exact absurd (by rw [hnil]; rfl) hP

theorem run_invokes_handler_iff_no_outcome_witness :
    countHandler (Run scenarioEnv wS1 GoValue.null wM0).2.2 = 1 ∧
    (Run scenarioEnv wS1 GoValue.null wM0).1
      = (some (GoValue.str "H"), none) := by
  have h := run_invokes_handler_iff_no_outcome scenarioEnv wS1 GoValue.null
    wM0 { wM0 with slotHeld := true } [Event.acquired] rfl
  exact ⟨(h.2.2.2 rfl).1, (h.2.2.2 rfl).2⟩

/-- Claim C2: runActions executes the action list in order under the spec
list-execution rule — the first action that returns an error aborts the
list and that error propagates with a nil response, discarding any
previously remembered response, while among non-error actions the last
non-nil response is the one returned after the list (the rule is the
definition specListExecution, worded from the spec; the second conjunct
exhibits the abort against an arbitrary remembered response). -/
theorem runActions_follows_list_execution (env : Env) (s : runState)
    (req : GoValue) :
    (∀ (acts : HookActions) (m : RunM),
       runActions env s req acts m = specListExecution env s req none acts m) ∧
    (∀ (a : HookAction) (rest : HookActions) (respOut : Option GoValue)
       (m : RunM) (e : GoError),
       (runAction env s req a m).1.2 = some e →
       (runActionsLoop env s req respOut (HookActions.cons a rest) m).1
         = (none, some e)) := by
  constructor
  · intro acts m
    exact runActionsLoop_eq_specListExecution env s req acts none m
  · intro a rest respOut m e he
    simp only [runActionsLoop]
    rw [he]

theorem runActions_follows_list_execution_witness :
    (runActionsLoop scenarioEnv wS1 GoValue.null (some (GoValue.str "R0"))
        (HookActions.cons (HookAction.ReturnError 5 "boom" [])
          (HookActions.cons (HookAction.SetResponse (GoValue.str "R2"))
            HookActions.nil)) wM0).1
      = (none, some (GoError.status 5 "boom" [])) := by
  exact (runActions_follows_list_execution scenarioEnv wS1 GoValue.null).2
    (HookAction.ReturnError 5 "boom" [])
    (HookActions.cons (HookAction.SetResponse (GoValue.str "R2")) HookActions.nil)
    (some (GoValue.str "R0")) wM0 (GoError.status 5 "boom" []) rfl

/-- The run-state of the C3 failing input: a hook whose single action is
ReturnError with code NOT_FOUND (5), message "no" and one structured
detail, in front of a recognisable downstream handler. -/
def c3s : runState :=
  ⟨"c3", fun _ => (some (.str "H"), none),
    ⟨HookActions.cons (.ReturnError 5 "no" [.str "d"]) HookActions.nil⟩⟩

/-- Claim C3, evaluated at the failing input: when attaching the detail to
the status fails, the source assigns the nil status that grpc WithDetails
returns on failure, so the action yields neither a response nor an error —
the (code, message) status is lost and Run falls through to the downstream
handler, contradicting the claim that the status is still returned as the
error. -/
theorem returnError_attach_failure_loses_status :
    runAction_ReturnError attachFailEnv c3s GoValue.null 5 "no"
      [GoValue.str "d"] wM0 = ((none, none), wM0) ∧
    (Run attachFailEnv c3s GoValue.null wM0).1
      = (some (GoValue.str "H"), none) :=
  ⟨rfl, rfl⟩

/-- Claim C4: once govalcmp.Compare yields delta d, the comparison
operator EQUAL holds iff d = 0, GREATER_THAN iff d > 0,
GREATER_THAN_OR_EQUAL iff d >= 0, LESS_THAN iff d < 0,
LESS_THAN_OR_EQUAL iff d <= 0, and any operator outside these five fails
with the invalid-operator error. -/
theorem compare_operator_semantics (env : Env) (l r : GoValue) (d : Int)
    (h : env.govalcmpCompare l r = Except.ok d) :
    runState.compare env l ComparisonOperator.EQUAL r = (decide (d = 0), none) ∧
    runState.compare env l ComparisonOperator.GREATER_THAN r
      = (decide (d > 0), none) ∧
    runState.compare env l ComparisonOperator.GREATER_THAN_OR_EQUAL r
      = (decide (d ≥ 0), none) ∧
    runState.compare env l ComparisonOperator.LESS_THAN r = (decide (d < 0), none) ∧
    runState.compare env l ComparisonOperator.LESS_THAN_OR_EQUAL r
      = (decide (d ≤ 0), none) ∧
    ∀ n : Int, runState.compare env l (ComparisonOperator.UNRECOGNIZED n) r
        = (false, some (GoError.str "invalid comparison operator")) := by
  refine ⟨?_, ?_, ?_, ?_, ?_, fun n => ?_⟩ <;> (unfold runState.compare; rw [h])

theorem compare_operator_semantics_witness :
    runState.compare scenarioEnv (GoValue.int 3) ComparisonOperator.EQUAL
      (GoValue.int 2) = (false, none) ∧
    runState.compare scenarioEnv (GoValue.int 3) ComparisonOperator.LESS_THAN
      (GoValue.int 2) = (false, none) ∧
    runState.compare scenarioEnv (GoValue.int 3) ComparisonOperator.GREATER_THAN
      (GoValue.int 2) = (true, none) ∧
    runState.compare scenarioEnv (GoValue.int 3) (ComparisonOperator.UNRECOGNIZED 7)
      (GoValue.int 2)
      = (false, some (GoError.str "invalid comparison operator")) := by
  have h := compare_operator_semantics scenarioEnv (GoValue.int 3)
    (GoValue.int 2) 1 (by rfl)
  exact ⟨h.1.trans (by decide), h.2.2.2.1.trans (by decide),
    h.2.1.trans (by decide), h.2.2.2.2.2 7⟩

/-- Claim C5: condition lists are AND with short-circuit on the first
false condition: when the earlier conditions all hold and one condition
evaluates to false without error, the whole list evaluates to false
without error regardless of what follows — in particular a later
condition whose evaluation would error (the tail rest is arbitrary) is
never evaluated and cannot error the hook. -/
theorem checkConditions_short_circuit (env : Env) (s : runState)
    (req : GoValue) (pre : List HookCondition) (c : HookCondition)
    (rest : List HookCondition) (m m1 m2 : RunM)
    (hpre : checkConditions env s req pre m = ((true, none), m1))
    (hc : checkCondition env s req c m1 = ((false, none), m2)) :
    checkConditions env s req (pre ++ c :: rest) m = ((false, none), m2) := by
  induction pre generalizing m with
  | nil =>
    have hm : m = m1 := by
      have h2 := hpre
      simp only [checkConditions, Prod.mk.injEq] at h2
      exact h2.2
    subst hm
    rw [List.nil_append]
    unfold checkConditions
    rw [hc]
    rfl
  | cons p pre ih =>
    rw [List.cons_append]
    unfold checkConditions at hpre ⊢
    rcases hp : checkCondition env s req p m with ⟨⟨ok, err⟩, mm⟩
    rw [hp] at hpre
    cases err with
    | some e => simp at hpre
    | none =>
      cases ok with
      | false => simp at hpre
      | true =>
        simp only at hpre ⊢
        exact ih mm hpre

theorem checkConditions_short_circuit_witness :
    checkConditions scenarioEnv wS1 GoValue.null
      [⟨ValueRef.JsonValue "1", ComparisonOperator.EQUAL, ValueRef.JsonValue "2"⟩,
       ⟨ValueRef.RequestField "f", ComparisonOperator.EQUAL, ValueRef.JsonValue "1"⟩]
      wM0 = ((false, none), wM0) := by
  exact checkConditions_short_circuit scenarioEnv wS1 GoValue.null []
    ⟨ValueRef.JsonValue "1", ComparisonOperator.EQUAL, ValueRef.JsonValue "2"⟩
    [⟨ValueRef.RequestField "f", ComparisonOperator.EQUAL, ValueRef.JsonValue "1"⟩]
    wM0 wM0 wM0 rfl (by rfl)

/-- The S3 condition: counter "n" less than the JSON literal 3. -/
def s3Cond : HookCondition :=
  ⟨.CounterValue "n", .LESS_THAN, .JsonValue "3"⟩

/-- The S3 action: If(cond, match: Counter("n", +1) then SetResponse R1,
noMatch: ReturnError RESOURCE_EXHAUSTED (code 8)). -/
def s3Action : HookAction :=
  .If [s3Cond]
    (.cons (.Counter "n" 1) (.cons (.SetResponse (.str "R1")) .nil))
    (.cons (.ReturnError 8 "resource exhausted" []) .nil)

/-- The S3 run-state: the single-action hook above, with a recognisable
downstream handler. -/
def s3runState : runState :=
  ⟨"s3", fun _ => (some (.str "H"), none), ⟨.cons s3Action .nil⟩⟩

/-- First S3 invocation, from a fresh session. -/
def s3run1 := Run scenarioEnv s3runState (.str "req") wM0

/-- Second S3 invocation, on the state the first one left. -/
def s3run2 := Run scenarioEnv s3runState (.str "req") s3run1.2.1

/-- Third S3 invocation. -/
def s3run3 := Run scenarioEnv s3runState (.str "req") s3run2.2.1

/-- Fourth S3 invocation. -/
def s3run4 := Run scenarioEnv s3runState (.str "req") s3run3.2.1

/-- Claim C6: four sequential invocations of the S3 hook starting from
counter "n" = 0 — the first three return response R1 and leave the
counter at 1, 2, 3, and the fourth returns the RESOURCE_EXHAUSTED status
error with the counter still at 3. -/
theorem conditional_counter_scenario :
    s3run1.1 = (some (GoValue.str "R1"), none) ∧
    counterValue s3run1.2.1 "n" = 1 ∧
    s3run2.1 = (some (GoValue.str "R1"), none) ∧
    counterValue s3run2.2.1 "n" = 2 ∧
    s3run3.1 = (some (GoValue.str "R1"), none) ∧
    counterValue s3run3.2.1 "n" = 3 ∧
    s3run4.1 = (none, some (GoError.status 8 "resource exhausted" [])) ∧
    counterValue s3run4.2.1 "n" = 3 := by
  refine ⟨by rfl, by rfl, by rfl, by rfl, by rfl, by rfl, by rfl, by rfl⟩

/-- Claim C7: a JsonValue reference feeds the literal JSON text to the
decoder at each evaluation and returns exactly its verdict; a decode
error fails the condition evaluation, aborts the containing If and makes
the whole hook return that error (with the downstream handler never
invoked) instead of evaluating the condition to false. -/
theorem jsonValue_decode_error_propagates (env : Env) (s : runState)
    (req : GoValue) (j : String) (e : GoError)
    (hdec : env.jsonUnmarshal j = Except.error e) :
    (∀ m : RunM,
       resolveValueRef env s req (ValueRef.JsonValue j) m
         = ((GoValue.null, some e), m)) ∧
    (∀ (op : ComparisonOperator) (rref : ValueRef) (m : RunM),
       checkCondition env s req ⟨ValueRef.JsonValue j, op, rref⟩ m
         = ((false, some e), m)) ∧
    (∀ (op : ComparisonOperator) (rref : ValueRef) (mt nmt : HookActions)
       (m : RunM),
       runAction env s req
           (HookAction.If [⟨ValueRef.JsonValue j, op, rref⟩] mt nmt) m
         = ((none, some e), m, [Event.exec false])) ∧
    (∀ (s2 : runState) (op : ComparisonOperator) (rref : ValueRef)
       (mt nmt : HookActions) (m : RunM),
       s2.Hook.Actions = HookActions.cons
           (HookAction.If [⟨ValueRef.JsonValue j, op, rref⟩] mt nmt)
           HookActions.nil →
       m.acqOracle = [] →
       (Run env s2 req m).1 = (none, some e) ∧
       countHandler (Run env s2 req m).2.2 = 0) := by
  have h1 : ∀ (su : runState) (m : RunM),
      resolveValueRef env su req (ValueRef.JsonValue j) m
        = ((GoValue.null, some e), m) := by
    intro su m
    simp [resolveValueRef, resolveValueRef_JsonValue, hdec]
  have h2 : ∀ (su : runState) (op : ComparisonOperator) (rref : ValueRef)
      (m : RunM),
      checkCondition env su req ⟨ValueRef.JsonValue j, op, rref⟩ m
        = ((false, some e), m) := by
    intro su op rref m
    simp [checkCondition, h1 su m]
  have h3 : ∀ (su : runState) (op : ComparisonOperator) (rref : ValueRef)
      (mt nmt : HookActions) (m : RunM),
      runAction env su req
          (HookAction.If [⟨ValueRef.JsonValue j, op, rref⟩] mt nmt) m
        = ((none, some e), m, [Event.exec false]) := by
    intro su op rref mt nmt m
    simp [runAction, checkConditions, h2 su op rref m]
  refine ⟨h1 s, h2 s, h3 s, ?_⟩
  intro s2 op rref mt nmt m hhook hq
  have hacq : acquireRunLock m
      = (none, { m with slotHeld := true }, [Event.acquired]) := by
    unfold acquireRunLock
    rw [hq]
  have hRA : runActions env s2 req s2.Hook.Actions { m with slotHeld := true }
      = ((none, some e), { m with slotHeld := true }, [Event.exec false]) := by
    rw [hhook]
    simp [runActions, runActionsLoop, h3 s2 op rref mt nmt]
  rw [Run_eq_ok env s2 req m { m with slotHeld := true } [Event.acquired] hacq,
    hRA]
  simp [countHandler_append, countHandler_cons, countHandler_nil]

theorem jsonValue_decode_error_propagates_witness :
    (Run scenarioEnv
        ⟨"w7", fun _ => (some (GoValue.str "H"), none),
          ⟨HookActions.cons
            (HookAction.If
              [⟨ValueRef.JsonValue "zzz", ComparisonOperator.EQUAL,
                ValueRef.JsonValue "1"⟩]
              HookActions.nil HookActions.nil)
            HookActions.nil⟩⟩
        GoValue.null wM0).1
      = (none, some (GoError.str "invalid json literal: zzz")) := by
  exact ((jsonValue_decode_error_propagates scenarioEnv wS1 GoValue.null "zzz"
      (GoError.str "invalid json literal: zzz") (by rfl)).2.2.2
    ⟨"w7", fun _ => (some (GoValue.str "H"), none),
      ⟨HookActions.cons
        (HookAction.If
          [⟨ValueRef.JsonValue "zzz", ComparisonOperator.EQUAL,
            ValueRef.JsonValue "1"⟩]
          HookActions.nil HookActions.nil)
        HookActions.nil⟩⟩
    ComparisonOperator.EQUAL (ValueRef.JsonValue "1")
    HookActions.nil HookActions.nil wM0 rfl rfl).1

/-- Claim C8: when the context is cancelled while Run is acquiring the
session run-slot, Run returns a nil response with the cancellation error,
no action of the hook is executed, the downstream handler is not invoked,
and the session state — counters, barriers, slot — is unchanged by the
invocation. -/
theorem run_cancelled_during_acquire (env : Env) (s : runState)
    (req : GoValue) (m : RunM) (e : GoError) (rest : List (Option GoError))
    (hq : m.acqOracle = some e :: rest) :
    Run env s req m
      = ((none, some e), { m with acqOracle := rest },
         [Event.acquireFailed]) ∧
    countHandler (Run env s req m).2.2 = 0 ∧
    (Run env s req m).2.1.counters = m.counters ∧
    (Run env s req m).2.1.barriers = m.barriers ∧
    (Run env s req m).2.1.slotHeld = m.slotHeld := by
  have hrun : Run env s req m
      = ((none, some e), { m with acqOracle := rest },
         [Event.acquireFailed]) := by
    unfold Run acquireRunLock
    rw [hq]
  refine ⟨hrun, ?_, ?_, ?_, ?_⟩ <;> rw [hrun]
  rfl

theorem run_cancelled_during_acquire_witness :
    Run scenarioEnv wS1 GoValue.null
      { wM0 with acqOracle := [some (GoError.ctxErr "context canceled")] }
      = ((none, some (GoError.ctxErr "context canceled")),
         wM0, [Event.acquireFailed]) := by
  have h := run_cancelled_during_acquire scenarioEnv wS1 GoValue.null
    { wM0 with acqOracle := [some (GoError.ctxErr "context canceled")] }
    (GoError.ctxErr "context canceled") [] rfl
  exact h.1

/-- Claim C9: a run-state holds the session run-slot across its whole
action list except during a WaitOnBarrier, where it releases the slot
before parking on the barrier and re-acquires it afterwards — every Run
trace satisfies the slot discipline (actions dispatched only while
holding, barrier waits only while not holding); and in any admissible
schedule of one session (the run-slot being mutual exclusion, an
acquisition only succeeds while nobody holds it) whose per-run traces are
disciplined, an action is only ever dispatched by the run-state that is
the unique current slot holder — so at most one run-state of a session is
actively executing non-wait actions at any moment. -/
theorem run_slot_discipline_single_active :
    (∀ (env : Env) (s : runState) (req : GoValue) (m : RunM),
       slotOkB false (Run env s req m).2.2 = true) ∧
    (∀ (σ1 σ2 : Sched) (r : String) (w : Bool),
       exclusiveB none (σ1 ++ (r, Event.exec w) :: σ2) = true →
       slotOkB false (projRun r (σ1 ++ (r, Event.exec w) :: σ2)) = true →
       holderAfter none σ1 = some r) :=
  ⟨fun env s req m => Run_slotOk env s req m,
   fun σ1 σ2 r w hex hdis => exec_only_by_holder σ1 σ2 r w hex hdis⟩

theorem run_slot_discipline_single_active_witness :
    holderAfter none [("A", Event.acquired)] = some "A" := by
  exact run_slot_discipline_single_active.2
    [("A", Event.acquired)] [("A", Event.released)] "A" false
    (by decide) (by decide)

/-- Claim C10: past a successful slot acquisition, Run emits exactly one
top-level release right after the action list returns, unconditionally
(first conjunct: the whole trace shape, in both the fall-through and the
suppressed branch); the result of a WaitOnBarrier action is determined
solely by the slot re-acquisition — the error of barrier.Wait itself is
discarded, so cancellation during the wait surfaces only as a failed
re-acquisition (second conjunct); and when that re-acquisition fails, Run
still calls releaseRunLock, at a moment when the run-state no longer
holds the slot, and returns the cancellation error (third conjunct). -/
theorem run_release_unconditional :
    (∀ (env : Env) (s : runState) (req : GoValue) (m m1 : RunM)
       (tr1 : List Event),
       acquireRunLock m = (none, m1, tr1) →
       (Run env s req m).2.2
         = tr1 ++ (runActions env s req s.Hook.Actions m1).2.2
             ++ [Event.released]
             ++ (if (runActions env s req s.Hook.Actions m1).1 = (none, none)
                 then [Event.handlerInvoked] else [])) ∧
    (∀ (env : Env) (s : runState) (req : GoValue) (barrierId : String)
       (m : RunM),
       (runAction env s req (HookAction.WaitOnBarrier barrierId) m).1
         = ((none : Option GoValue), (acquireRunLock m).1)) ∧
    (∀ (env : Env) (s : runState) (req : GoValue) (barrierId : String)
       (e : GoError) (rest : List (Option GoError)) (m : RunM),
       s.Hook.Actions = HookActions.cons (HookAction.WaitOnBarrier barrierId)
           HookActions.nil →
       m.acqOracle = none :: some e :: rest →
       (Run env s req m).1 = (none, some e) ∧
       (Run env s req m).2.2
         = [Event.acquired, Event.exec true, Event.released,
            Event.barrierWaiting barrierId, Event.acquireFailed,
            Event.released] ∧
       replaySlot false [Event.acquired, Event.exec true, Event.released,
            Event.barrierWaiting barrierId, Event.acquireFailed] = false ∧
       (Run env s req m).2.1.slotHeld = false) := by
  refine ⟨?_, ?_, ?_⟩
  · intro env s req m m1 tr1 hacq
    rw [Run_eq_ok env s req m m1 tr1 hacq]
  · intro env s req barrierId m
    have hb : (getBarrierLocked barrierId m).acqOracle = m.acqOracle :=
      barrierResolve_acqOracle barrierId m
    rcases hq : m.acqOracle with _ | ⟨oe, rest⟩
    · simp [runAction, runAction_WaitOnBarrier, releaseRunLock,
        acquireRunLock, hb, hq]
    · cases oe with
      | none =>
        simp [runAction, runAction_WaitOnBarrier, releaseRunLock,
          acquireRunLock, hb, hq]
      | some e =>
        simp [runAction, runAction_WaitOnBarrier, releaseRunLock,
          acquireRunLock, hb, hq]
  · intro env s req barrierId e rest m hhook hq
    have hacq : acquireRunLock m
        = (none, { m with acqOracle := some e :: rest, slotHeld := true },
           [Event.acquired]) := by
      unfold acquireRunLock
      rw [hq]
    have hb : (getBarrierLocked barrierId
        { m with acqOracle := some e :: rest, slotHeld := true }).acqOracle
        = some e :: rest :=
      barrierResolve_acqOracle barrierId _
    have hRA : runActions env s req s.Hook.Actions
        { m with acqOracle := some e :: rest, slotHeld := true }
        = ((none, some e),
           { getBarrierLocked barrierId
               { m with acqOracle := some e :: rest, slotHeld := true }
             with acqOracle := rest, slotHeld := false },
           [Event.exec true, Event.released,
            Event.barrierWaiting barrierId, Event.acquireFailed]) := by
      rw [hhook]
      simp [runActions, runActionsLoop, runAction, runAction_WaitOnBarrier,
        releaseRunLock, acquireRunLock, hb]
    rw [Run_eq_ok env s req m
      { m with acqOracle := some e :: rest, slotHeld := true }
      [Event.acquired] hacq, hRA]
    refine ⟨by simp, by simp, rfl, by simp⟩

theorem run_release_unconditional_witness :
    (Run scenarioEnv
        ⟨"w10", fun _ => (some (GoValue.str "H"), none),
          ⟨HookActions.cons (HookAction.WaitOnBarrier "b") HookActions.nil⟩⟩
        GoValue.null
        { wM0 with acqOracle := [none, some (GoError.ctxErr "context canceled")] }).1
      = (none, some (GoError.ctxErr "context canceled")) ∧
    (Run scenarioEnv
        ⟨"w10", fun _ => (some (GoValue.str "H"), none),
          ⟨HookActions.cons (HookAction.WaitOnBarrier "b") HookActions.nil⟩⟩
        GoValue.null
        { wM0 with acqOracle := [none, some (GoError.ctxErr "context canceled")] }).2.2
      = [Event.acquired, Event.exec true, Event.released,
         Event.barrierWaiting "b", Event.acquireFailed, Event.released] := by
  have h := run_release_unconditional.2.2 scenarioEnv
    ⟨"w10", fun _ => (some (GoValue.str "H"), none),
      ⟨HookActions.cons (HookAction.WaitOnBarrier "b") HookActions.nil⟩⟩
    GoValue.null "b" (GoError.ctxErr "context canceled") [] 
    { wM0 with acqOracle := [none, some (GoError.ctxErr "context canceled")] }
    rfl rfl
  exact ⟨h.1, h.2.1⟩
